import Mathlib

/-!
Verification of the Fuel-Price cycle-analysis core.

Shallow embedding of the repository's cycle-phase detection, probability
estimation, backtesting and forecasting logic:

* `src/market_physics.py`   — `calculate_margin_pressure`,
  `estimate_hike_probability`, `analyze_cycles`, `predict_status`
* `src/cycle_prediction.py` — `analyze_cycles`, `predict_status`
* `src/backtester.py`       — `run_backtest`, `optimize_algorithm`
* `src/neural_forecast.py`  — `NeuralForecaster.predict_next_14_days`

Modelling conventions:

* Calendar days are `Int` day numbers (pandas timestamps normalized to
  midnight; subtraction of two dates in days is plain `Int` subtraction).
* Prices, thresholds and scores are exact rationals `ℚ` (the Python code
  uses binary floats; none of the verified properties depends on float
  rounding of the decimal constants involved).
* A daily series is a `List (Int × ℚ)` of (day, median price) rows, the
  repository's `daily_df` with columns `day`/`date` and `price_cpl`.
* Functions that read the wall clock (`pd.Timestamp.now()`) take the
  current day as an explicit first argument `now`.
* Functions that read the persisted `algo_config.json` take the persisted
  threshold as an explicit argument (`cfgThreshold`), with the repository
  default being `8.0`.
* Python's `int(x)` truncates toward zero; this is `Int.tdiv` on the
  rational's numerator and denominator (`truncQ` below).
* Python's `round(x, k)` rounds half to even; `roundHalfEven`/`roundTo1`
  below implement exactly that on rationals.
-/

/-- Phase labels used across the repository (string literals in Python). -/
inductive Status where
  | HIKE | DROPPING | BOTTOM | OVERDUE
  | HIKE_STARTED | HIKE_IMMINENT | WARNING | STABLE | UNKNOWN
deriving DecidableEq, Repr

/-- Python `int(q)` on an exact rational: truncation toward zero. -/
def truncQ (q : ℚ) : Int := q.num.tdiv q.den

/-- Python `round(x)` on an exact rational: round half to even. -/
def roundHalfEven (x : ℚ) : Int :=
  let f := ⌊x⌋
  let frac := x - f
  if frac < 1/2 then f
  else if 1/2 < frac then f + 1
  else if f % 2 = 0 then f else f + 1

/-- Python `round(x, 1)`. -/
def roundTo1 (x : ℚ) : ℚ := (roundHalfEven (x * 10) : ℚ) / 10

/-- Python `round(x, 2)`. -/
def roundTo2 (x : ℚ) : ℚ := (roundHalfEven (x * 100) : ℚ) / 100

/-- `pandas.Series.mean()` of a list of rationals (`0` on the empty list,
which the embedded code never hits). -/
def meanQ (l : List ℚ) : ℚ := l.sum / l.length

/-- `pandas.Series.max()`: `none` models the NaN produced on empty input. -/
def listMaxQ : List ℚ → Option ℚ
  | [] => none
  | x :: xs => some (xs.foldl max x)

/-- `pandas.Series.min()` over the day column. -/
def listMinZ : List Int → Option Int
  | [] => none
  | x :: xs => some (xs.foldl min x)

/-- The days on which a hike event fires: rows whose day-over-day price
delta (against the previous *present* row, pandas `diff()`) strictly
exceeds `thr`.  The first row has a NaN delta and never fires. -/
def hikeDays (thr : ℚ) : List (Int × ℚ) → List Int
  | [] => []
  | [_] => []
  | a :: b :: rest =>
    (if b.2 - a.2 > thr then [b.1] else []) ++ hikeDays thr (b :: rest)

/-- Day gaps between consecutive hike dates (pandas `diff().dt.days.dropna()`). -/
def gapsOf (l : List Int) : List ℚ :=
  (l.zip l.tail).map (fun p => ((p.2 - p.1 : Int) : ℚ))

/-- Ordering of daily rows by day, for `sort_values('day')`. -/
def leDay (a b : Int × ℚ) : Prop := a.1 ≤ b.1

instance : DecidableRel leDay := fun a b => inferInstanceAs (Decidable (a.1 ≤ b.1))

instance : IsTotal (Int × ℚ) leDay := ⟨fun a b => le_total a.1 b.1⟩

instance : IsTrans (Int × ℚ) leDay := ⟨fun _ _ _ h h' => le_trans h h'⟩

/-! ## market_physics.py -/

/-- `calculate_margin_pressure(retail_median, tgp)`: gross retail margin,
`0.0` when either input is `None`. -/
def calcMarginPressure (retailMedian tgp : Option ℚ) : ℚ :=
  match retailMedian, tgp with
  | some r, some t => r - t
  | _, _ => 0

/-- `estimate_hike_probability(margin, duration, tgp_trend_val)`:
accumulates the heuristic terms into `prob` and clamps to `[0,1]`. -/
def estimateHikeProbability (margin : ℚ) (duration : Int) (tgpTrendVal : ℚ) : ℚ :=
  let prob : ℚ := 0
  let prob := if margin < 2 then prob + 1/2 else prob
  let prob := if margin < 0 then prob + 3/10 else prob
  let prob := if duration > 35 then prob + 1/10 else prob
  let prob := if tgpTrendVal < -(1/2) then prob - 2/5 else prob
  max 0 (min 1 prob)

/-- The accumulation exactly as the specification words it: 0, plus 0.50 if
margin < 2.0, plus an additional 0.30 if margin < 0.0, plus 0.10 if
days_elapsed > 35, minus 0.40 if wholesale_trend_delta < −0.5.  Stated from
the spec for comparison with `estimateHikeProbability`. -/
def specHikeAccum (margin : ℚ) (duration : Int) (tgpTrendVal : ℚ) : ℚ :=
  (if margin < 2 then 1/2 else 0)
    + (if margin < 0 then 3/10 else 0)
    + (if duration > 35 then 1/10 else 0)
    - (if tgpTrendVal < -(1/2) then 2/5 else 0)

/-- `market_physics.analyze_cycles(daily_df)`.  Returns
`(avg_cycle_length, avg_relenting, last_hike_date)`; the first two go
through Python `int()`.  `now` is the wall-clock day read by
`pd.Timestamp.now()` in the empty-input fallback. -/
def mpAnalyzeCycles (now : Int) (dailyDf : List (Int × ℚ)) : Int × Int × Int :=
  if dailyDf.isEmpty then (21, 14, now - 10)
  else
    let sorted := List.insertionSort leDay dailyDf
    let hikes := hikeDays 8 sorted
    if hikes.isEmpty then (30, 25, (listMinZ (sorted.map Prod.fst)).getD now)
    else
      let lastHikeDate := hikes.getLastD 0
      if hikes.length > 1 then
        let avgLen := meanQ (gapsOf hikes)
        let avgRelent := avgLen * (4/5)
        (truncQ avgLen, truncQ avgRelent, lastHikeDate)
      else
        (35, 28, lastHikeDate)

/-- Result record of `market_physics.predict_status` (the returned dict). -/
structure BResult where
  status : Status
  advice : String
  hikeProbability : ℚ
  margin : ℚ
  volatility : ℚ
deriving DecidableEq, Repr

/-- `market_physics.predict_status(current_median, tgp, duration,
tgp_trend_val, volatility)`. -/
def mpPredictStatus (currentMedian tgp : Option ℚ) (duration : Int)
    (tgpTrendVal volatility : ℚ) : BResult :=
  let margin := calcMarginPressure currentMedian tgp
  let prob := estimateHikeProbability margin duration tgpTrendVal
  let sa : Status × String :=
    if volatility > 5 then (.HIKE_STARTED, "FILL NOW")
    else if prob > 7/10 then (.HIKE_IMMINENT, "FILL NOW")
    else if prob > 2/5 then (.WARNING, "Top Up")
    else if margin > 20 then (.DROPPING, "Wait")
    else if margin < 5 then (.BOTTOM, "Buy")
    else (.STABLE, "Hold")
  { status := sa.1
    advice := sa.2
    hikeProbability := roundTo1 (prob * 100)
    margin := roundTo2 margin
    volatility := roundTo2 volatility }

/-! ## cycle_prediction.py -/

/-- One loop body of the cycle extraction in
`cycle_prediction.analyze_cycles`: for a consecutive pair of hike dates
`(start, end)`, the rows of `daily_df` with `start <= date < end` form the
cycle window; an empty window is skipped (`None`), otherwise the pair
contributes `(total_days, relenting_days)` where `relenting_days` is
measured to the first row attaining the window's minimum price. -/
def cycleRecord (dailyDf : List (Int × ℚ)) (se : Int × Int) : Option (Int × Int) :=
  match dailyDf.filter (fun r => se.1 ≤ r.1 ∧ r.1 < se.2) with
  | [] => none
  | c :: cs =>
    let minPrice := (c :: cs).foldl (fun a r => min a r.2) c.2
    let minDate := (((c :: cs).filter (fun r => r.2 = minPrice)).headD c).1
    some (se.2 - se.1, minDate - se.1)

/-- The loop over consecutive hike-date pairs of
`cycle_prediction.analyze_cycles`, skipping empty windows. -/
def cpCycles (thr : ℚ) (dailyDf : List (Int × ℚ)) : List (Int × Int) :=
  let hikes := hikeDays thr dailyDf
  (hikes.zip hikes.tail).filterMap (cycleRecord dailyDf)

/-- `cycle_prediction.analyze_cycles(daily_df, hike_threshold)`.  Returns
`(avg_cycle_length, avg_relenting, last_hike_date)` as exact means; `now`
is the wall-clock day returned by the `stats.empty` fallback (and by the
`hike_dates[-1] if hike_dates else now` guard). -/
def cpAnalyzeCycles (now : Int) (dailyDf : List (Int × ℚ)) (hikeThreshold : ℚ) :
    ℚ × ℚ × Int :=
  let hikes := hikeDays hikeThreshold dailyDf
  let cycles := cpCycles hikeThreshold dailyDf
  if cycles.isEmpty then (30, 20, now)
  else
    (meanQ (cycles.map (fun c => ((c.1 : ℚ)))),
     meanQ (cycles.map (fun c => ((c.2 : ℚ)))),
     hikes.getLastD now)

/-- Prediction record of `cycle_prediction.predict_status` (the dict with
keys `last_hike`, `days_elapsed`, `days_remaining`, `status`). -/
structure Prediction where
  lastHike : Int
  daysElapsed : Int
  daysRemaining : Int
  status : Status
deriving DecidableEq, Repr

/-- `cycle_prediction.predict_status(avg_relenting, last_hike_date)`.
`now` is the wall-clock day read by `pd.Timestamp.now().normalize()`. -/
def cpPredictStatus (now : Int) (avgRelenting : ℚ) (lastHikeDate : Int) : Prediction :=
  let daysElapsed := now - lastHikeDate
  let estDaysRemaining := avgRelenting - (daysElapsed : ℚ)
  { lastHike := lastHikeDate
    daysElapsed := daysElapsed
    daysRemaining := if estDaysRemaining > 0 then truncQ estDaysRemaining else 0
    status :=
      if daysElapsed < 3 then .HIKE
      else if estDaysRemaining > 3 then .DROPPING
      else if estDaysRemaining > 0 then .BOTTOM
      else .OVERDUE }

/-! ## Caller-frame effects of the two analyzers

A pandas dataframe held by the caller, abstracted to what the frame claims
need: the day column, the price column, and the names of any further
columns.  `daily_df['change'] = daily_df['price_cpl'].diff()` in
`cycle_prediction.analyze_cycles` assigns a column on the caller's object
in place (adding it if absent); `daily_df = daily_df.sort_values('day')`
in `market_physics.analyze_cycles` rebinds to a fresh copy, so the
subsequent `daily_df['delta'] = ...` assignment never reaches the caller's
object. -/
structure Frame where
  dates : List Int
  prices : List ℚ
  extraCols : List String
deriving DecidableEq, Repr

/-- The caller's dataframe after `cycle_prediction.analyze_cycles` returns:
the `change` column has been assigned in place. -/
def cpAnalyzeCyclesFrame (f : Frame) : Frame :=
  { f with extraCols := if "change" ∈ f.extraCols then f.extraCols
                        else f.extraCols ++ ["change"] }

/-- The caller's dataframe after `market_physics.analyze_cycles` returns:
unchanged, because the function mutates only its private sorted copy. -/
def mpAnalyzeCyclesFrame (f : Frame) : Frame := f

/-! ## neural_forecast.py -/

/-- One iteration of the loop body of
`NeuralForecaster.predict_next_14_days` at loop index `i` (Python
`range(1, 15)`), on simulated state `(sim_price, sim_days)`.  Returns the
day's `hike_prob` together with the next state. -/
def forecastStep (tgp : ℚ) (status : Status) (i : Nat) (s : ℚ × Int) :
    ℚ × (ℚ × Int) :=
  let simDays := s.2 + 1
  let hikeProb : ℚ :=
    if simDays > 25 ∧ s.1 < tgp + 4 then ((simDays : ℚ) - 25) / 10 else 0
  let hikeProb :=
    if (status = .HIKE_STARTED ∨ status = .HIKE_IMMINENT) ∧ i < 3 then 1
    else hikeProb
  let next : ℚ × Int :=
    if hikeProb > 4/5 then
      let target := tgp + 24
      let simPrice := s.1 + (target - s.1) * (1/2)
      (simPrice, if simPrice > target - 2 then 0 else simDays)
    else if simDays < 5 then
      let target := tgp + 24
      (s.1 + (target - s.1) * (1/5), simDays)
    else
      let excess := max 0 (s.1 - (tgp + 2))
      let drop := 3/2 + excess * (1/50)
      (max (s.1 - drop) (tgp + 1/2), simDays)
  (hikeProb, next)

/-- Runs `fuel` iterations of the forecast loop starting at loop index `i`,
collecting `(hike_prob, recorded price)` per simulated day; the recorded
price is `round(sim_price, 1)` as appended to `forecast_prices`. -/
def forecastAux (tgp : ℚ) (status : Status) : Nat → Nat → ℚ × Int → List (ℚ × ℚ)
  | _, 0, _ => []
  | i, fuel + 1, s =>
    let r := forecastStep tgp status i s
    (r.1, roundTo1 r.2.1) :: forecastAux tgp status (i + 1) fuel r.2

/-- `NeuralForecaster(tgp, current_price, days_since_hike, status)
.predict_next_14_days()`: the 14 simulated days, each with the
`hike_prob` in force that day and the recorded forecast price. -/
def predictNext14Days (tgp currentPrice : ℚ) (daysSinceHike : Int)
    (status : Status) : List (ℚ × ℚ) :=
  forecastAux tgp status 1 14 (currentPrice, daysSinceHike)

/-! ## backtester.py -/

/-- One row of the backtest `results` list. -/
structure BRecord where
  date : Int
  price : ℚ
  signalHike : Nat
  actualHike : Nat
deriving DecidableEq, Repr

/-- The metrics dict computed at the end of `run_backtest`. -/
structure Metrics where
  totalDays : Nat
  accuracy : ℚ
  precision : ℚ
  recallScore : ℚ
  f1Score : ℚ
  tp : Nat
  fp : Nat
  tn : Nat
  fn : Nat
deriving DecidableEq, Repr

/-- Step 5 of `run_backtest`: confusion counts and derived metrics over the
accumulated records (with the 0-denominator guards of the source). -/
def mkMetrics (records : List BRecord) : Metrics :=
  let tp := (records.filter (fun r => r.signalHike = 1 ∧ r.actualHike = 1)).length
  let fp := (records.filter (fun r => r.signalHike = 1 ∧ r.actualHike = 0)).length
  let tn := (records.filter (fun r => r.signalHike = 0 ∧ r.actualHike = 0)).length
  let fn := (records.filter (fun r => r.signalHike = 0 ∧ r.actualHike = 1)).length
  let precision : ℚ := if tp + fp > 0 then (tp : ℚ) / ((tp : ℚ) + (fp : ℚ)) else 0
  let recallScore : ℚ := if tp + fn > 0 then (tp : ℚ) / ((tp : ℚ) + (fn : ℚ)) else 0
  { totalDays := records.length
    accuracy := ((tp : ℚ) + (tn : ℚ)) / (records.length : ℚ)
    precision := precision
    recallScore := recallScore
    f1Score := if precision + recallScore > 0
               then 2 * (precision * recallScore) / (precision + recallScore) else 0
    tp := tp, fp := fp, tn := tn, fn := fn }

/-- `run_backtest(df, lookahead_days, ground_truth_threshold,
algo_threshold)` on an already-daily series (one `(day, median price)` row
per day, the output of the groupby-median preprocessing).  `now` is the
wall-clock day read via `predict_status`; `cfgThreshold` is the persisted
`hike_threshold` that `analyze_cycles` loads when `algo_threshold` is
`None`.  `int(len(daily) * 0.2)` is `len / 5` (truncated). -/
def runBacktest (now : Int) (daily : List (Int × ℚ)) (lookaheadDays : Nat)
    (groundTruthThreshold : ℚ) (algoThreshold : Option ℚ) (cfgThreshold : ℚ) :
    Option Metrics × Option (List BRecord) :=
  let n := daily.length
  let minHistory := max 5 (n / 5)
  if n < minHistory + lookaheadDays + 1 then (none, none)
  else
    let stopIdx := n - lookaheadDays
    let minHistory := if minHistory ≥ stopIdx then stopIdx - 5 else minHistory
    let records := (List.range' minHistory (stopIdx - minHistory)).filterMap
      (fun i =>
        match daily.get? i with
        | none => none
        | some cur =>
          let history := daily.take (i + 1)
          let a := cpAnalyzeCycles now history (algoThreshold.getD cfgThreshold)
          let pred := cpPredictStatus now a.2.1 a.2.2
          let signal : Nat :=
            if pred.status = .HIKE ∨ pred.status = .OVERDUE then 1 else 0
          let future := (daily.drop (i + 1)).take lookaheadDays
          let actual : Nat :=
            match listMaxQ (future.map Prod.snd) with
            | none => 0
            | some m => if m - cur.2 > groundTruthThreshold then 1 else 0
          some ⟨cur.1, cur.2, signal, actual⟩)
    if records.isEmpty then (none, none)
    else (some (mkMetrics records), some records)

/-- The grid `np.arange(4.0, 12.5, 0.5)` of `optimize_algorithm`. -/
def gridThresholds : List ℚ := (List.range 17).map (fun k => 4 + (k : ℚ) / 2)

/-- `score = f1_score or accuracy-if-f1-is-0` in `optimize_algorithm`. -/
def scoreOf (m : Metrics) : ℚ := if m.f1Score = 0 then m.accuracy else m.f1Score

/-- Loop state of the grid search: `best_score`, `best_thresh`,
`current_score`. -/
structure OptState where
  bestScore : ℚ
  bestThresh : ℚ
  currentScore : ℚ
deriving DecidableEq, Repr

/-- One grid-search iteration of `optimize_algorithm` at candidate
threshold `t` (backtest with default `lookahead_days=7`; baseline tracking
for the candidate within 0.1 of the persisted threshold, then best-score
update). -/
def optStep (now : Int) (daily : List (Int × ℚ)) (groundTruthThreshold : ℚ)
    (currentThresh : ℚ) (s : OptState) (t : ℚ) : OptState :=
  match (runBacktest now daily 7 groundTruthThreshold (some t) currentThresh).1 with
  | none => s
  | some m =>
    let sc := scoreOf m
    let s1 := if |t - currentThresh| < 1/10 then { s with currentScore := sc } else s
    if sc > s1.bestScore then { s1 with bestScore := sc, bestThresh := t } else s1

/-- The completed grid search fold (initial state
`best_score = -1.0, best_thresh = 8.0, current_score = 0.0`). -/
def optFold (now : Int) (daily : List (Int × ℚ)) (groundTruthThreshold : ℚ)
    (currentThresh : ℚ) : OptState :=
  gridThresholds.foldl (optStep now daily groundTruthThreshold currentThresh)
    ⟨-1, 8, 0⟩

/-- The baseline score of `optimize_algorithm`: the tracked score of the
grid candidate within 0.1 of the currently persisted threshold (0.0 when no
candidate qualifies or its backtest returns no metrics). -/
def baselineScore (now : Int) (daily : List (Int × ℚ)) (groundTruthThreshold : ℚ)
    (currentThresh : ℚ) : ℚ :=
  (optFold now daily groundTruthThreshold currentThresh).currentScore

/-- Which message `optimize_algorithm` formats: the improvement report or
`"Current threshold (...) is optimal."`. -/
inductive OptMessage where
  | improved
  | alreadyOptimal
deriving DecidableEq, Repr

/-- `optimize_algorithm(df, ground_truth_threshold)` with the persisted
threshold `currentThresh` passed explicitly (the source reads it through
`load_config()`).  Returns the recommended `hike_threshold` and which
message is reported. -/
def optimizeAlgorithm (now : Int) (daily : List (Int × ℚ))
    (groundTruthThreshold : ℚ) (currentThresh : ℚ) : ℚ × OptMessage :=
  let f := optFold now daily groundTruthThreshold currentThresh
  if f.bestScore - f.currentScore > 1/100 then (f.bestThresh, .improved)
  else (currentThresh, .alreadyOptimal)

/-! ## Helper lemmas -/

/-- Python `int()` agrees with the floor on nonnegative rationals. -/
theorem truncQ_eq_floor (q : ℚ) (h : 0 ≤ q) : truncQ q = ⌊q⌋ := by
  rw [truncQ, Rat.floor_def]
  exact Int.tdiv_eq_ediv (Rat.num_nonneg.mpr h) (Int.natCast_nonneg _)

/-- Banker's rounding moves a value by at most one half. -/
theorem roundHalfEven_bounds (x : ℚ) :
    x - 1/2 ≤ (roundHalfEven x : ℚ) ∧ (roundHalfEven x : ℚ) ≤ x + 1/2 := by
  have hf : ((⌊x⌋ : ℤ) : ℚ) ≤ x := Int.floor_le x
  have hf2 : x < (⌊x⌋ : ℤ) + 1 := Int.lt_floor_add_one x
  simp only [roundHalfEven]
  split_ifs with h1 h2 h3 <;> constructor <;> push_cast at * <;> linarith

/-- The hike days of a series all come from rows past the first. -/
theorem hikeDays_sublist_tail (thr : ℚ) :
    ∀ l : List (Int × ℚ), List.Sublist (hikeDays thr l) (l.tail.map Prod.fst) := by
  intro l
  induction l with
  | nil => simp [hikeDays]
  | cons a tail ih =>
    cases tail with
    | nil => simp [hikeDays]
    | cons b rest =>
      have ih' : List.Sublist (hikeDays thr (b :: rest)) (rest.map Prod.fst) := by
        simpa using ih
      simp only [hikeDays, List.tail_cons, List.map_cons]
      split_ifs
      · exact List.Sublist.cons₂ b.1 ih'
      · exact List.Sublist.cons b.1 ih'

/-- The hike days of a series are a sublist of its day column. -/
theorem hikeDays_sublist (thr : ℚ) (l : List (Int × ℚ)) :
    List.Sublist (hikeDays thr l) (l.map Prod.fst) :=
  (hikeDays_sublist_tail thr l).trans ((List.tail_sublist l).map Prod.fst)

/-- Every hike day is the day of some row of the series. -/
theorem hikeDays_mem (thr : ℚ) (l : List (Int × ℚ)) {x : Int}
    (hx : x ∈ hikeDays thr l) : ∃ p, (x, p) ∈ l := by
  have hx' : x ∈ l.map Prod.fst := (hikeDays_sublist thr l).subset hx
  obtain ⟨r, hr, hrx⟩ := List.mem_map.mp hx'
  exact ⟨r.2, by simpa [← hrx] using hr⟩

/-- Consecutive pairs of a pairwise-related list are related. -/
theorem pairwise_zip_tail {α : Type} {r : α → α → Prop} :
    ∀ {l : List α}, l.Pairwise r → ∀ {a b : α}, (a, b) ∈ l.zip l.tail → r a b := by
  intro l
  induction l with
  | nil => simp
  | cons x xs ih =>
    intro hp a b hm
    cases xs with
    | nil => simp at hm
    | cons y ys =>
      simp only [List.tail_cons, List.zip_cons_cons, List.mem_cons] at hm
      rcases hm with h | h
      · simp only [Prod.mk.injEq] at h
        obtain ⟨rfl, rfl⟩ := h
        exact (List.pairwise_cons.mp hp).1 _ (by simp)
      · exact ih (List.pairwise_cons.mp hp).2 h

/-- On a day-sorted series the hike days are nondecreasing. -/
theorem hikeDays_pairwise_le (thr : ℚ) (l : List (Int × ℚ))
    (hs : List.Pairwise leDay l) : (hikeDays thr l).Pairwise (· ≤ ·) := by
  have hmap : (l.map Prod.fst).Pairwise (· ≤ ·) := List.pairwise_map.mpr hs
  exact hmap.sublist (hikeDays_sublist thr l)

/-- On a strictly day-sorted series the hike days are strictly increasing. -/
theorem hikeDays_pairwise_lt (thr : ℚ) (l : List (Int × ℚ))
    (hs : List.Pairwise (fun a b : Int × ℚ => a.1 < b.1) l) :
    (hikeDays thr l).Pairwise (· < ·) := by
  have hmap : (l.map Prod.fst).Pairwise (· < ·) := List.pairwise_map.mpr hs
  exact hmap.sublist (hikeDays_sublist thr l)

/-- The gaps between nondecreasing hike days are nonnegative, hence so is
their mean. -/
theorem meanQ_gapsOf_nonneg (l : List Int) (h : l.Pairwise (· ≤ ·)) :
    0 ≤ meanQ (gapsOf l) := by
  apply div_nonneg _ (Nat.cast_nonneg _)
  apply List.sum_nonneg
  intro x hx
  obtain ⟨p, hp, hpx⟩ := List.mem_map.mp hx
  have hle : p.1 ≤ p.2 := pairwise_zip_tail h hp
  rw [← hpx]
  simpa using sub_nonneg.mpr hle


/-- A hike-to-hike window whose start day is a row of the series is
nonempty, so its `cycleRecord` is kept and records the day gap. -/
theorem cycleRecord_some (df : List (Int × ℚ)) (s e : Int) (hse : s < e)
    (p : ℚ) (hmem : (s, p) ∈ df) :
    ∃ r, cycleRecord df (s, e) = some (e - s, r) := by
  unfold cycleRecord
  rcases hfil : df.filter (fun x => decide (s ≤ x.1 ∧ x.1 < e)) with _ | ⟨c, cs⟩
  · exfalso
    have hin : (s, p) ∈ df.filter (fun x => decide (s ≤ x.1 ∧ x.1 < e)) := by
      rw [List.mem_filter]
      exact ⟨hmem, by simp [hse]⟩
    rw [hfil] at hin
    simp at hin
  · rw [hfil]
    exact ⟨_, rfl⟩

/-- With at least two (strictly ordered) hike events the first
hike-to-hike window of `cycle_prediction.analyze_cycles` is nonempty, so
at least one complete cycle is recorded. -/
theorem cpCycles_ne_nil (thr : ℚ) (df : List (Int × ℚ))
    (hs : List.Pairwise (fun a b : Int × ℚ => a.1 < b.1) df)
    (h2 : 2 ≤ (hikeDays thr df).length) :
    cpCycles thr df ≠ [] := by
  rcases hh : hikeDays thr df with _ | ⟨a, t⟩
  · rw [hh] at h2; simp at h2
  · rcases t with _ | ⟨b, t2⟩
    · rw [hh] at h2; simp at h2
    · have hab : a < b := by
        have hp := hikeDays_pairwise_lt thr df hs
        rw [hh] at hp
        exact (List.pairwise_cons.mp hp).1 b (by simp)
      obtain ⟨p, hpmem⟩ := hikeDays_mem thr df (x := a) (by rw [hh]; simp)
      obtain ⟨r, hr⟩ := cycleRecord_some df a b hab p hpmem
      unfold cpCycles
      rw [hh]
      simp only [List.tail_cons, List.zip_cons_cons, List.filterMap_cons, hr]
      simp

/-- If every consecutive hike pair is kept with its day gap as first
component, filtering the kept records projects back to the day gaps. -/
theorem filterMap_cycleRecord_map_fst (df : List (Int × ℚ)) :
    ∀ l : List (Int × Int),
      (∀ se ∈ l, ∃ r, cycleRecord df se = some (se.2 - se.1, r)) →
      (l.filterMap (cycleRecord df)).map (fun c => ((c.1 : ℚ)))
        = l.map (fun p => ((p.2 - p.1 : Int) : ℚ)) := by
  intro l
  induction l with
  | nil => intro _; simp
  | cons se rest ih =>
    intro h
    obtain ⟨r, hr⟩ := h se (by simp)
    simp only [List.filterMap_cons, hr, List.map_cons]
    rw [ih (fun x hx => h x (List.mem_cons_of_mem _ hx))]

/-- On a strictly day-ordered series no hike-to-hike window is skipped:
the `total_days` column of the recorded cycles is exactly the list of day
gaps between consecutive hike dates. -/
theorem cpCycles_fst_gaps (thr : ℚ) (df : List (Int × ℚ))
    (hs : List.Pairwise (fun a b : Int × ℚ => a.1 < b.1) df) :
    (cpCycles thr df).map (fun c => ((c.1 : ℚ))) = gapsOf (hikeDays thr df) := by
  unfold cpCycles gapsOf
  apply filterMap_cycleRecord_map_fst
  rintro ⟨s, e⟩ hse
  have hlt : s < e := pairwise_zip_tail (hikeDays_pairwise_lt thr df hs) hse
  have hmem_s : s ∈ hikeDays thr df := (List.of_mem_zip hse).1
  obtain ⟨p, hp⟩ := hikeDays_mem thr df hmem_s
  exact cycleRecord_some df s e hlt p hp

/-! ## C1 — cycle statistics with at least two hike events -/

/-- With at least two hike events, `market_physics.analyze_cycles`
returns the floor of the mean hike-to-hike gap, the floor of 0.8 times
that mean, and the most recent hike date (helper for the combined
two-hike statement below). -/
theorem mpAnalyzeCycles_two_hikes (now : Int) (df : List (Int × ℚ))
    (h2 : 2 ≤ (hikeDays 8 (List.insertionSort leDay df)).length) :
    mpAnalyzeCycles now df =
      (⌊meanQ (gapsOf (hikeDays 8 (List.insertionSort leDay df)))⌋,
       ⌊meanQ (gapsOf (hikeDays 8 (List.insertionSort leDay df))) * (4/5)⌋,
       (hikeDays 8 (List.insertionSort leDay df)).getLastD 0) := by
  have hsorted : List.Pairwise leDay (List.insertionSort leDay df) :=
    List.sorted_insertionSort leDay df
  have hμ : 0 ≤ meanQ (gapsOf (hikeDays 8 (List.insertionSort leDay df))) :=
    meanQ_gapsOf_nonneg _ (hikeDays_pairwise_le 8 _ hsorted)
  cases df with
  | nil => simp [List.insertionSort, hikeDays] at h2
  | cons x xs =>
    rcases hh : hikeDays 8 (List.insertionSort leDay (x :: xs)) with _ | ⟨h1, t1⟩
    · rw [hh] at h2; simp at h2
    · rw [hh] at h2 hμ
      rw [mpAnalyzeCycles, if_neg (by simp)]
      simp only []
      rw [hh, if_neg (by simp), if_pos (by simpa using h2)]
      rw [truncQ_eq_floor _ hμ, truncQ_eq_floor _ (mul_nonneg hμ (by norm_num))]

/-- C1 (counterexample): on the series with hikes at days 1, 8 and 18 the
gap mean is 17/2 = 8.5.  `market_physics.analyze_cycles` returns
`avg_cycle_length = 8` (Python `int()` truncation), not the mean, with
`avg_relenting = 6 ≠ 0.8 * 8`; `cycle_prediction.analyze_cycles` returns
the exact mean 8.5 but computes `avg_relenting = 0` from the min-price
dates of the two cycles, which is not `0.8 * 8.5 = 6.8`.  Both cited
implementations therefore violate the claimed exact relations. -/
theorem analyzeCycles_two_hikes_cx :
    mpAnalyzeCycles 0 [(0,150),(1,160),(8,170),(18,180)] = (8, 6, 18)
    ∧ cpAnalyzeCycles 0 [(0,150),(1,160),(8,170),(18,180)] 8 = (17/2, 0, 18)
    ∧ meanQ (gapsOf (hikeDays 8 [(0,150),(1,160),(8,170),(18,180)])) = 17/2
    ∧ ¬ ((8 : ℚ) = 17/2)
    ∧ ¬ ((6 : ℚ) = (4/5) * 8)
    ∧ ¬ ((0 : ℚ) = (4/5) * (17/2)) :=
  ⟨by with_unfolding_all rfl, by with_unfolding_all rfl,
   by with_unfolding_all rfl, by norm_num, by norm_num, by norm_num⟩

/-- C1 (amended): with at least two hike events on a strictly day-ordered
series, `market_physics.analyze_cycles` returns the *floor* of the mean
hike-to-hike gap, the *floor* of 0.8 times that mean, and the most recent
hike date, while `cycle_prediction.analyze_cycles` returns the exact
un-truncated mean of the gaps as `avg_cycle_length`, the mean of the
per-cycle (min-price date − cycle start) offsets as `avg_relenting` —
not 0.8 times the cycle length — and the most recent hike date. -/
theorem analyzeCycles_two_hikes (now : Int) (df : List (Int × ℚ)) (thr : ℚ)
    (hs : List.Pairwise (fun a b : Int × ℚ => a.1 < b.1) df)
    (h2 : 2 ≤ (hikeDays thr df).length)
    (h28 : 2 ≤ (hikeDays 8 (List.insertionSort leDay df)).length) :
    mpAnalyzeCycles now df =
      (⌊meanQ (gapsOf (hikeDays 8 (List.insertionSort leDay df)))⌋,
       ⌊meanQ (gapsOf (hikeDays 8 (List.insertionSort leDay df))) * (4/5)⌋,
       (hikeDays 8 (List.insertionSort leDay df)).getLastD 0)
    ∧ (cpAnalyzeCycles now df thr).1 = meanQ (gapsOf (hikeDays thr df))
    ∧ (cpAnalyzeCycles now df thr).2.1
        = meanQ ((cpCycles thr df).map (fun c => ((c.2 : ℚ))))
    ∧ (cpAnalyzeCycles now df thr).2.2 = (hikeDays thr df).getLastD 0 := by
  have hcp : cpAnalyzeCycles now df thr
      = (meanQ ((cpCycles thr df).map (fun c => ((c.1 : ℚ)))),
         meanQ ((cpCycles thr df).map (fun c => ((c.2 : ℚ)))),
         (hikeDays thr df).getLastD now) := by
    simp only [cpAnalyzeCycles]
    rw [if_neg (by simpa [List.isEmpty_iff] using cpCycles_ne_nil thr df hs h2)]
  refine ⟨mpAnalyzeCycles_two_hikes now df h28, ?_, ?_, ?_⟩
  · rw [hcp]
    exact congrArg meanQ (cpCycles_fst_gaps thr df hs)
  · rw [hcp]
  · rw [hcp]
    rcases hh : hikeDays thr df with _ | ⟨a, t⟩
    · rw [hh] at h2; simp at h2
    · rw [List.getLastD_cons, List.getLastD_cons]

/-- C1 (witness): the amended statement evaluated on the hike days 1, 8,
18 series with threshold 8. -/
theorem analyzeCycles_two_hikes_inst :
    List.Pairwise (fun a b : Int × ℚ => a.1 < b.1)
      [(0,150),(1,160),(8,170),(18,180)]
    ∧ 2 ≤ (hikeDays 8 [(0,150),(1,160),(8,170),(18,180)]).length
    ∧ 2 ≤ (hikeDays 8 (List.insertionSort leDay
        [(0,150),(1,160),(8,170),(18,180)])).length
    ∧ (mpAnalyzeCycles 0 [(0,150),(1,160),(8,170),(18,180)] =
        (⌊meanQ (gapsOf (hikeDays 8 (List.insertionSort leDay
            [(0,150),(1,160),(8,170),(18,180)])))⌋,
         ⌊meanQ (gapsOf (hikeDays 8 (List.insertionSort leDay
            [(0,150),(1,160),(8,170),(18,180)]))) * (4/5)⌋,
         (hikeDays 8 (List.insertionSort leDay
            [(0,150),(1,160),(8,170),(18,180)])).getLastD 0)
      ∧ (cpAnalyzeCycles 0 [(0,150),(1,160),(8,170),(18,180)] 8).1
          = meanQ (gapsOf (hikeDays 8 [(0,150),(1,160),(8,170),(18,180)]))
      ∧ (cpAnalyzeCycles 0 [(0,150),(1,160),(8,170),(18,180)] 8).2.1
          = meanQ ((cpCycles 8 [(0,150),(1,160),(8,170),(18,180)]).map
              (fun c => ((c.2 : ℚ))))
      ∧ (cpAnalyzeCycles 0 [(0,150),(1,160),(8,170),(18,180)] 8).2.2
          = (hikeDays 8 [(0,150),(1,160),(8,170),(18,180)]).getLastD 0) :=
  ⟨by with_unfolding_all decide, by with_unfolding_all decide,
   by with_unfolding_all decide,
   analyzeCycles_two_hikes 0 _ 8 (by with_unfolding_all decide)
     (by with_unfolding_all decide) (by with_unfolding_all decide)⟩

/-! ## C2 — exactly one hike event -/

/-- C2 (counterexample): the series below has exactly one hike event (day
1), yet `cycle_prediction.analyze_cycles` returns the zero-cycle fallback
`(30.0, 20.0, wall-clock now)` — not the claimed conservative defaults
(35, 28) — and its last-hike output is the current wall-clock day (here
100), not the hike date 1. -/
theorem cpAnalyzeCycles_single_hike_cx :
    hikeDays 8 [(0,150),(1,160),(2,159)] = [1]
    ∧ cpAnalyzeCycles 100 [(0,150),(1,160),(2,159)] 8 = (30, 20, 100)
    ∧ ¬ ((30 : ℚ) = 35) ∧ ¬ ((20 : ℚ) = 28) ∧ ¬ ((100 : Int) = 1) :=
  ⟨by with_unfolding_all rfl, by with_unfolding_all rfl,
   by norm_num, by norm_num, by norm_num⟩

/-- C2 (amended): `market_physics.analyze_cycles` does return the
conservative defaults (35, 28) anchored on the single hike date;
`cycle_prediction.analyze_cycles` instead falls back to
`(30.0, 20.0, wall-clock now)` because one hike yields no complete cycle
(see the counterexample). -/
theorem mpAnalyzeCycles_single_hike (now : Int) (df : List (Int × ℚ)) (d : Int)
    (h : hikeDays 8 (List.insertionSort leDay df) = [d]) :
    mpAnalyzeCycles now df = (35, 28, d) := by
  cases df with
  | nil => simp [List.insertionSort, hikeDays] at h
  | cons x xs =>
    rw [mpAnalyzeCycles, if_neg (by simp)]
    simp only []
    rw [h, if_neg (by simp), if_neg (by simp)]
    simp [List.getLastD]

/-- C2 (witness): the amended statement evaluated on a series with the
single hike day 1. -/
theorem mpAnalyzeCycles_single_hike_inst :
    hikeDays 8 (List.insertionSort leDay [(0,150),(1,160),(2,159)]) = [1]
    ∧ mpAnalyzeCycles 0 [(0,150),(1,160),(2,159)] = (35, 28, 1) :=
  ⟨by with_unfolding_all rfl,
   mpAnalyzeCycles_single_hike 0 _ 1 (by with_unfolding_all rfl)⟩

/-! ## C3 — backtester determinism and hidden inputs -/

set_option maxRecDepth 10000 in
/-- C3 (counterexample): the backtester is not a function of its explicit
arguments alone — `predict_status` reads the wall-clock date, so the same
series, lookahead, thresholds and explicit algo threshold produce
different `BacktestRecord` sequences when run on day 11 versus day 14
(the later run classifies the days after the second hike as DROPPING
instead of HIKE, flipping `signal_hike`). -/
theorem runBacktest_clock_cx :
    runBacktest 11
        [(0,150),(1,160),(2,159),(3,158),(4,157),(5,156),(6,155),(7,154),
         (8,153),(9,152),(10,162),(11,161),(12,160),(13,159)] 1 5 (some 8) 8
    ≠ runBacktest 14
        [(0,150),(1,160),(2,159),(3,158),(4,157),(5,156),(6,155),(7,154),
         (8,153),(9,152),(10,162),(11,161),(12,160),(13,159)] 1 5 (some 8) 8 := by
  with_unfolding_all decide

/-- C3 (amended): holding the wall-clock day fixed, the embedded backtest
is a pure function of its arguments; the hidden wall-clock input enters
only through `predict_status` (and the fallbacks of `analyze_cycles`) —
in particular, on a strictly day-ordered history containing at least two
hike events, `cycle_prediction.analyze_cycles` itself is independent of
the clock. -/
theorem cpAnalyzeCycles_clock_blind (now1 now2 : Int) (df : List (Int × ℚ))
    (thr : ℚ)
    (hs : List.Pairwise (fun a b : Int × ℚ => a.1 < b.1) df)
    (h2 : 2 ≤ (hikeDays thr df).length) :
    cpAnalyzeCycles now1 df thr = cpAnalyzeCycles now2 df thr := by
  have hc : cpCycles thr df ≠ [] := cpCycles_ne_nil thr df hs h2
  simp only [cpAnalyzeCycles]
  rw [if_neg (by simpa [List.isEmpty_iff] using hc),
      if_neg (by simpa [List.isEmpty_iff] using hc)]
  rcases hh : hikeDays thr df with _ | ⟨a, t⟩
  · rw [hh] at h2; simp at h2
  · rw [List.getLastD_cons, List.getLastD_cons]

/-- C3 (witness): the amended statement evaluated on a two-hike series at
wall-clock days 5 and 500. -/
theorem cpAnalyzeCycles_clock_blind_inst :
    List.Pairwise (fun a b : Int × ℚ => a.1 < b.1)
      [(0,150),(1,160),(2,159),(10,170)]
    ∧ 2 ≤ (hikeDays 8 [(0,150),(1,160),(2,159),(10,170)]).length
    ∧ cpAnalyzeCycles 5 [(0,150),(1,160),(2,159),(10,170)] 8
      = cpAnalyzeCycles 500 [(0,150),(1,160),(2,159),(10,170)] 8 :=
  ⟨by with_unfolding_all decide, by with_unfolding_all decide,
   cpAnalyzeCycles_clock_blind 5 500 _ 8
     (by with_unfolding_all decide) (by with_unfolding_all decide)⟩

/-! ## C4 — forced hike probability at the start of the forecast horizon -/

/-- While the caller-supplied status says a hike is underway and the loop
index is below 3, the day's `hike_prob` is forced to 1.0. -/
theorem forecastStep_fst_forced (tgp : ℚ) (status : Status) (i : Nat) (s : ℚ × Int)
    (h : status = .HIKE_STARTED ∨ status = .HIKE_IMMINENT) (hi : i < 3) :
    (forecastStep tgp status i s).1 = 1 := by
  simp only [forecastStep]
  rw [if_pos (show (status = .HIKE_STARTED ∨ status = .HIKE_IMMINENT) ∧ i < 3
        from ⟨h, hi⟩)]

/-- Unfolding equation of the forecast loop. -/
theorem forecastAux_cons (tgp : ℚ) (status : Status) (i fuel : Nat) (s : ℚ × Int) :
    forecastAux tgp status i (fuel+1) s =
      ((forecastStep tgp status i s).1,
       roundTo1 (forecastStep tgp status i s).2.1)
        :: forecastAux tgp status (i+1) fuel (forecastStep tgp status i s).2 := rfl

/-- C4 (counterexample): with `status = HIKE_STARTED` the simulated
`hike_probability` of `predict_next_14_days` is 1.0 on days 1 and 2 but
already 0 on day 3 — the loop guard is `i < 3` with `i` starting at 1, so
only the first *two* simulated days are forced, not the first three. -/
theorem predictNext14Days_third_day_cx :
    ((predictNext14Days 150 180 0 .HIKE_STARTED).map Prod.fst).take 3 = [1, 1, 0]
    ∧ ¬ ((0 : ℚ) = 1) := by
  constructor
  · with_unfolding_all decide
  · norm_num

/-- C4 (amended): if the caller-supplied status indicates a hike is
underway (HIKE_STARTED or HIKE_IMMINENT), `predict_next_14_days` forces
`hike_probability = 1.0` for each of the first *two* simulated days of
the horizon. -/
theorem predictNext14Days_forced_first_two (tgp currentPrice : ℚ)
    (daysSinceHike : Int) (status : Status)
    (h : status = .HIKE_STARTED ∨ status = .HIKE_IMMINENT) :
    ((predictNext14Days tgp currentPrice daysSinceHike status).map Prod.fst).take 2
      = [1, 1] := by
  show ((forecastAux tgp status 1 14
      (currentPrice, daysSinceHike)).map Prod.fst).take 2 = [1, 1]
  rw [show (14:Nat) = 13+1 from rfl, forecastAux_cons,
      show (13:Nat) = 12+1 from rfl, forecastAux_cons]
  simp only [List.map_cons, List.take_cons, List.take]
  rw [forecastStep_fst_forced _ _ _ _ h (by norm_num),
      forecastStep_fst_forced _ _ _ _ h (by norm_num)]

/-- C4 (witness): the amended statement evaluated at
`NeuralForecaster(150, 180, 0, "HIKE_STARTED")`. -/
theorem predictNext14Days_forced_first_two_inst :
    (Status.HIKE_STARTED = Status.HIKE_STARTED
      ∨ Status.HIKE_STARTED = Status.HIKE_IMMINENT)
    ∧ ((predictNext14Days 150 180 0 .HIKE_STARTED).map Prod.fst).take 2 = [1, 1] :=
  ⟨Or.inl rfl, predictNext14Days_forced_first_two 150 180 0 _ (Or.inl rfl)⟩

/-! ## C5 — Strategy A status selection -/

/-- C5: the status selection of `cycle_prediction.predict_status` is a
total function of (days_elapsed, days_remaining): exactly one of HIKE,
DROPPING, BOTTOM, OVERDUE is returned, in priority order —
`days_elapsed < 3` gives HIKE regardless of days_remaining, otherwise
`days_remaining > 3` gives DROPPING, otherwise `0 < days_remaining <= 3`
gives BOTTOM, otherwise OVERDUE (here `days_remaining` is the
specification's real-valued `max(0, avg_relenting - days_elapsed)`). -/
theorem cpPredictStatus_selection (now : Int) (avgRelenting : ℚ) (lastHikeDate : Int) :
    ((cpPredictStatus now avgRelenting lastHikeDate).status = .HIKE
      ∨ (cpPredictStatus now avgRelenting lastHikeDate).status = .DROPPING
      ∨ (cpPredictStatus now avgRelenting lastHikeDate).status = .BOTTOM
      ∨ (cpPredictStatus now avgRelenting lastHikeDate).status = .OVERDUE)
    ∧ ((cpPredictStatus now avgRelenting lastHikeDate).status = .HIKE
        ↔ now - lastHikeDate < 3)
    ∧ ((cpPredictStatus now avgRelenting lastHikeDate).status = .DROPPING
        ↔ 3 ≤ now - lastHikeDate
          ∧ 3 < max 0 (avgRelenting - ((now - lastHikeDate : Int) : ℚ)))
    ∧ ((cpPredictStatus now avgRelenting lastHikeDate).status = .BOTTOM
        ↔ 3 ≤ now - lastHikeDate
          ∧ 0 < max 0 (avgRelenting - ((now - lastHikeDate : Int) : ℚ))
          ∧ max 0 (avgRelenting - ((now - lastHikeDate : Int) : ℚ)) ≤ 3)
    ∧ ((cpPredictStatus now avgRelenting lastHikeDate).status = .OVERDUE
        ↔ 3 ≤ now - lastHikeDate
          ∧ max 0 (avgRelenting - ((now - lastHikeDate : Int) : ℚ)) ≤ 0) := by
  simp only [cpPredictStatus]
  set d := now - lastHikeDate with hd
  set e := avgRelenting - (d : ℚ) with he
  have hmax3 : (3 < max 0 e) ↔ 3 < e :=
    ⟨fun h => (lt_max_iff.mp h).resolve_left (by norm_num),
     fun h => lt_max_iff.mpr (Or.inr h)⟩
  have hmax0 : (0 < max 0 e) ↔ 0 < e :=
    ⟨fun h => (lt_max_iff.mp h).resolve_left (by norm_num),
     fun h => lt_max_iff.mpr (Or.inr h)⟩
  have hmaxle0 : (max 0 e ≤ 0) ↔ e ≤ 0 :=
    ⟨fun h => (max_le_iff.mp h).2, fun h => max_le_iff.mpr ⟨le_refl 0, h⟩⟩
  have hmaxle3 : (max 0 e ≤ 3) ↔ e ≤ 3 :=
    ⟨fun h => (max_le_iff.mp h).2, fun h => max_le_iff.mpr ⟨by norm_num, h⟩⟩
  rw [hmax3, hmax0, hmaxle0, hmaxle3]
  by_cases h1 : d < 3 <;> by_cases h2 : 3 < e <;> by_cases h3 : 0 < e <;>
    simp [h1, h2, h3] <;> (try constructor) <;> linarith

/-! ## C9 — days_remaining clamp -/

/-- C9 (counterexample): with `avg_relenting = 2.5` and a hike today,
`predict_status` reports `days_remaining = 2` (Python `int()` truncation),
not the claimed `max(0, avg_relenting - days_elapsed) = 2.5`. -/
theorem cpPredictStatus_days_remaining_cx :
    (cpPredictStatus 10 (5/2) 10).daysRemaining = 2
    ∧ ¬ (((cpPredictStatus 10 (5/2) 10).daysRemaining : ℚ)
          = max 0 ((5/2 : ℚ) - ((10 - 10 : Int) : ℚ))) := by
  constructor
  · with_unfolding_all rfl
  · with_unfolding_all decide

/-- C9 (amended): `days_remaining` equals
`max(0, floor(avg_relenting - days_elapsed))` — the positive estimate is
truncated to an integer before being reported — and in particular is
never negative. -/
theorem cpPredictStatus_days_remaining (now : Int) (avgRelenting : ℚ)
    (lastHikeDate : Int) :
    (cpPredictStatus now avgRelenting lastHikeDate).daysRemaining
      = max 0 ⌊avgRelenting - ((now - lastHikeDate : Int) : ℚ)⌋
    ∧ 0 ≤ (cpPredictStatus now avgRelenting lastHikeDate).daysRemaining := by
  simp only [cpPredictStatus]
  set e := avgRelenting - ((now - lastHikeDate : Int) : ℚ) with he
  by_cases h : 0 < e
  · rw [if_pos h, truncQ_eq_floor _ (le_of_lt h)]
    exact ⟨(max_eq_right (Int.floor_nonneg.mpr (le_of_lt h))).symm,
           Int.floor_nonneg.mpr (le_of_lt h)⟩
  · rw [if_neg h]
    exact ⟨(max_eq_left (Int.floor_nonpos (not_lt.mp h))).symm, le_refl 0⟩

/-! ## C6 — minimum-history guard of the backtester -/

set_option maxRecDepth 10000 in
/-- C6 (counterexample): for a flat 27-day series with
`lookahead_days = 21`, the claim's real-valued guard
`27 < max(5, 0.2*27) + 21 + 1 = 27.4` holds, yet the backtest does not
return the `(None, None)` sentinel — the source truncates with
`int(len(daily) * 0.2)`, giving `min_history = 5` and `27 < 27` false, so
one day is evaluated. -/
theorem runBacktest_insufficient_cx :
    runBacktest 0 ((List.range 27).map (fun k => ((k : Int), (150 : ℚ))))
        21 5 none 8 ≠ (none, none)
    ∧ ((27 : ℚ) < max 5 ((2/10) * 27) + 21 + 1) := by
  constructor
  · with_unfolding_all decide
  · with_unfolding_all decide

/-- C6 (amended): with the integer-truncated
`min_history = max(5, floor(0.2 * len(series)))` of the source, a series
shorter than `min_history + lookahead_days + 1` makes the backtest return
the `(None, None)` sentinel (a defined outcome — the embedded function is
total, so no exception is possible). -/
theorem runBacktest_insufficient (now : Int) (daily : List (Int × ℚ))
    (lookaheadDays : Nat) (groundTruthThreshold : ℚ) (algoThreshold : Option ℚ)
    (cfgThreshold : ℚ)
    (h : daily.length < max 5 (daily.length / 5) + lookaheadDays + 1) :
    runBacktest now daily lookaheadDays groundTruthThreshold algoThreshold
      cfgThreshold = (none, none) := by
  simp only [runBacktest]
  rw [if_pos h]

/-- C6 (witness): the amended statement evaluated on a 6-day series with
a 7-day lookahead. -/
theorem runBacktest_insufficient_inst :
    [((0:Int),(150:ℚ)),(1,151),(2,152),(3,153),(4,154),(5,155)].length
      < max 5 ([((0:Int),(150:ℚ)),(1,151),(2,152),(3,153),(4,154),(5,155)].length / 5) + 7 + 1
    ∧ runBacktest 0 [((0:Int),(150:ℚ)),(1,151),(2,152),(3,153),(4,154),(5,155)]
        7 5 none 8 = (none, none) :=
  ⟨by decide,
   runBacktest_insufficient 0 _ 7 5 none 8 (by decide)⟩

/-! ## C7 — Strategy B hike probability -/

/-- C7 (counterexample): with margin 1.0 (median 151, TGP 150) the
internal probability is 0.5, but the `hike_probability` reported in the
returned `PhaseStatus` dict is `round(prob * 100, 1) = 50.0` — a
percentage, not a value in [0.0, 1.0]. -/
theorem mpPredictStatus_percent_cx :
    (mpPredictStatus (some 151) (some 150) 0 0 0).hikeProbability = 50
    ∧ ¬ ((mpPredictStatus (some 151) (some 150) 0 0 0).hikeProbability ≤ 1) := by
  constructor
  · with_unfolding_all rfl
  · with_unfolding_all decide

/-- C7 (amended): `estimate_hike_probability` equals the specified
accumulation (+0.50 if margin < 2, a further +0.30 if margin < 0, +0.10
if duration > 35, −0.40 if the wholesale trend < −0.5) clamped to
[0, 1]; the `PhaseStatus` returned by `predict_status` reports that
probability *as a percentage*, `round(100 · prob, 1)`, which always lies
within [0, 100] (not [0, 1]). -/
theorem mpPredictStatus_probability (currentMedian tgp : Option ℚ) (duration : Int)
    (tgpTrendVal volatility : ℚ) :
    estimateHikeProbability (calcMarginPressure currentMedian tgp) duration tgpTrendVal
      = max 0 (min 1 (specHikeAccum (calcMarginPressure currentMedian tgp) duration tgpTrendVal))
    ∧ 0 ≤ estimateHikeProbability (calcMarginPressure currentMedian tgp) duration tgpTrendVal
    ∧ estimateHikeProbability (calcMarginPressure currentMedian tgp) duration tgpTrendVal ≤ 1
    ∧ (mpPredictStatus currentMedian tgp duration tgpTrendVal volatility).hikeProbability
        = roundTo1 (estimateHikeProbability (calcMarginPressure currentMedian tgp) duration tgpTrendVal * 100)
    ∧ 0 ≤ (mpPredictStatus currentMedian tgp duration tgpTrendVal volatility).hikeProbability
    ∧ (mpPredictStatus currentMedian tgp duration tgpTrendVal volatility).hikeProbability ≤ 100 := by
  set m := calcMarginPressure currentMedian tgp with hm
  have heq : estimateHikeProbability m duration tgpTrendVal
      = max 0 (min 1 (specHikeAccum m duration tgpTrendVal)) := by
    simp only [estimateHikeProbability, specHikeAccum]
    congr 2
    split_ifs <;> ring
  have h0 : 0 ≤ estimateHikeProbability m duration tgpTrendVal := by
    simp only [estimateHikeProbability]
    exact le_max_left _ _
  have h1 : estimateHikeProbability m duration tgpTrendVal ≤ 1 := by
    simp only [estimateHikeProbability]
    exact max_le (by norm_num) (min_le_left _ _)
  have hrep : (mpPredictStatus currentMedian tgp duration tgpTrendVal volatility).hikeProbability
      = roundTo1 (estimateHikeProbability m duration tgpTrendVal * 100) := rfl
  set p := estimateHikeProbability m duration tgpTrendVal with hp
  have hble : (roundHalfEven (p * 100 * 10) : ℚ) ≤ p * 100 * 10 + 1/2 :=
    (roundHalfEven_bounds _).2
  have hbge : p * 100 * 10 - 1/2 ≤ (roundHalfEven (p * 100 * 10) : ℚ) :=
    (roundHalfEven_bounds _).1
  have hz1 : (0 : Int) ≤ roundHalfEven (p * 100 * 10) := by
    by_contra hcon
    push_neg at hcon
    have hc : roundHalfEven (p * 100 * 10) ≤ -1 := by omega
    have hcq : (roundHalfEven (p * 100 * 10) : ℚ) ≤ -1 := by exact_mod_cast hc
    nlinarith
  have hz2 : roundHalfEven (p * 100 * 10) ≤ 1000 := by
    by_contra hcon
    push_neg at hcon
    have hc : (1001 : Int) ≤ roundHalfEven (p * 100 * 10) := by omega
    have hcq : (1001 : ℚ) ≤ (roundHalfEven (p * 100 * 10) : ℚ) := by exact_mod_cast hc
    nlinarith
  refine ⟨heq, h0, h1, hrep, ?_, ?_⟩
  · rw [hrep, roundTo1]
    exact div_nonneg (by exact_mod_cast hz1) (by norm_num)
  · rw [hrep, roundTo1]
    rw [div_le_iff₀ (by norm_num : (0:ℚ) < 10)]
    calc (roundHalfEven (p * 100 * 10) : ℚ) ≤ 1000 := by exact_mod_cast hz2
    _ = 100 * 10 := by norm_num

/-! ## C10 — caller-frame effect of the analyzers -/

/-- C10 (counterexample): `cycle_prediction.analyze_cycles` mutates the
caller's dataframe: on a frame with no extra columns, the caller's object
afterwards carries a new `change` column, so it does not hold exactly the
columns it held before the call. -/
theorem cpAnalyzeCyclesFrame_cx :
    cpAnalyzeCyclesFrame ⟨[0,1,2], [150,160,159], []⟩
      ≠ (⟨[0,1,2], [150,160,159], []⟩ : Frame) := by
  with_unfolding_all decide

/-- C10 (amended): `cycle_prediction.analyze_cycles` preserves the
caller's rows (dates and prices) but assigns a `change` column in place,
so the caller's column set afterwards is the old one plus `change`;
`market_physics.analyze_cycles` leaves the caller's object entirely
unchanged (it sorts into a private copy before assigning its `delta`
column). -/
theorem analyzeCycles_frame (f : Frame) :
    (cpAnalyzeCyclesFrame f).dates = f.dates
    ∧ (cpAnalyzeCyclesFrame f).prices = f.prices
    ∧ "change" ∈ (cpAnalyzeCyclesFrame f).extraCols
    ∧ (∀ c : String,
        c ∈ (cpAnalyzeCyclesFrame f).extraCols ↔ c ∈ f.extraCols ∨ c = "change")
    ∧ mpAnalyzeCyclesFrame f = f := by
  refine ⟨rfl, rfl, ?_, ?_, rfl⟩
  · simp only [cpAnalyzeCyclesFrame]
    by_cases h : "change" ∈ f.extraCols
    · rw [if_pos h]; exact h
    · rw [if_neg h]; simp
  · intro c
    simp only [cpAnalyzeCyclesFrame]
    by_cases h : "change" ∈ f.extraCols
    · rw [if_pos h]
      constructor
      · exact Or.inl
      · rintro (hc | rfl)
        · exact hc
        · exact h
    · rw [if_neg h]
      simp

/-! ## C8 — threshold optimizer keeps an already-optimal threshold -/

/-- Scores derived from a confusion matrix are nonnegative. -/
theorem scoreOf_mkMetrics_nonneg (rs : List BRecord) : 0 ≤ scoreOf (mkMetrics rs) := by
  have hacc : 0 ≤ (mkMetrics rs).accuracy := by
    simp only [mkMetrics]
    positivity
  have hf1 : 0 ≤ (mkMetrics rs).f1Score := by
    simp only [mkMetrics]
    split_ifs <;> positivity
  rw [scoreOf]
  split_ifs
  · exact hacc
  · exact hf1

/-- Any metrics the backtester returns come from its confusion-matrix
aggregation. -/
theorem runBacktest_fst_some (now : Int) (daily : List (Int × ℚ)) (L : Nat)
    (gtThr : ℚ) (athr : Option ℚ) (cfg : ℚ) (m : Metrics)
    (h : (runBacktest now daily L gtThr athr cfg).1 = some m) :
    ∃ rs, m = mkMetrics rs := by
  simp only [runBacktest] at h
  split at h
  · simp at h
  · split at h <;> split at h <;> simp at h <;> exact ⟨_, h.symm⟩

/-- Any score the grid search can observe is nonnegative. -/
theorem runBacktest_score_nonneg (now : Int) (daily : List (Int × ℚ)) (L : Nat)
    (gtThr : ℚ) (athr : Option ℚ) (cfg : ℚ) (m : Metrics)
    (h : (runBacktest now daily L gtThr athr cfg).1 = some m) :
    0 ≤ scoreOf m := by
  obtain ⟨rs, rfl⟩ := runBacktest_fst_some now daily L gtThr athr cfg m h
  exact scoreOf_mkMetrics_nonneg rs

/-- The tracked baseline score of the grid search never goes negative. -/
theorem optFoldAux_current_nonneg (now : Int) (daily : List (Int × ℚ))
    (gtThr curThr : ℚ) :
    ∀ (l : List ℚ) (s : OptState), 0 ≤ s.currentScore →
      0 ≤ (l.foldl (optStep now daily gtThr curThr) s).currentScore := by
  intro l
  induction l with
  | nil => intro s hs; simpa using hs
  | cons t ts ih =>
    intro s hs
    rw [List.foldl_cons]
    apply ih
    simp only [optStep]
    split
    · exact hs
    · next m hm =>
      have hsc : 0 ≤ scoreOf m :=
        runBacktest_score_nonneg now daily 7 gtThr (some t) curThr m hm
      split_ifs <;> first | simpa using hsc | simpa using hs

/-- If every candidate's observed score is at most `B`, the grid search's
best score stays at most `B`. -/
theorem optFoldAux_best_le (now : Int) (daily : List (Int × ℚ))
    (gtThr curThr B : ℚ) :
    ∀ (l : List ℚ) (s : OptState),
      (∀ t ∈ l, ∀ m : Metrics,
        (runBacktest now daily 7 gtThr (some t) curThr).1 = some m →
        scoreOf m ≤ B) →
      s.bestScore ≤ B →
      (l.foldl (optStep now daily gtThr curThr) s).bestScore ≤ B := by
  intro l
  induction l with
  | nil => intro s _ hs; simpa using hs
  | cons t ts ih =>
    intro s hH hs
    rw [List.foldl_cons]
    apply ih _ (fun t' ht' => hH t' (List.mem_cons_of_mem _ ht'))
    simp only [optStep]
    split
    · exact hs
    · next m hm =>
      have hsc : scoreOf m ≤ B := hH t (by simp) m hm
      split_ifs <;> first | simpa using hsc | simpa using hs

/-- C8: if no grid candidate's score exceeds the baseline score (the score
tracked for the candidate within 0.1 of the persisted threshold) by more
than 0.01, `optimize_algorithm` returns the persisted threshold unchanged
together with the already-optimal message; in particular a persisted
default of 8.0 that already maximizes the score is returned as 8.0. -/
theorem optimizeAlgorithm_already_optimal (now : Int) (daily : List (Int × ℚ))
    (gtThr curThr : ℚ)
    (H : ∀ t ∈ gridThresholds, ∀ m : Metrics,
        (runBacktest now daily 7 gtThr (some t) curThr).1 = some m →
        scoreOf m ≤ baselineScore now daily gtThr curThr + 1/100) :
    optimizeAlgorithm now daily gtThr curThr = (curThr, .alreadyOptimal) := by
  have hcur0 : 0 ≤ baselineScore now daily gtThr curThr := by
    unfold baselineScore optFold
    exact optFoldAux_current_nonneg now daily gtThr curThr gridThresholds
      ⟨-1, 8, 0⟩ (by norm_num)
  have hinit : ((⟨-1, 8, 0⟩ : OptState)).bestScore
      ≤ baselineScore now daily gtThr curThr + 1/100 := by
    show (-1 : ℚ) ≤ _
    linarith
  have hbest : (optFold now daily gtThr curThr).bestScore
      ≤ baselineScore now daily gtThr curThr + 1/100 := by
    unfold optFold
    exact optFoldAux_best_le now daily gtThr curThr _ gridThresholds ⟨-1, 8, 0⟩ H hinit
  have hb2 : (optFold now daily gtThr curThr).bestScore
      - (optFold now daily gtThr curThr).currentScore ≤ 1/100 := by
    unfold baselineScore at hbest
    linarith
  simp only [optimizeAlgorithm]
  rw [if_neg (not_lt.mpr hb2)]

/-- C8 (witness): on a series too short for any candidate backtest to
produce metrics, every candidate vacuously stays within 0.01 of the
baseline and the persisted threshold 8.0 is returned with the
already-optimal message. -/
theorem optimizeAlgorithm_already_optimal_inst :
    (∀ t ∈ gridThresholds, ∀ m : Metrics,
        (runBacktest 0 [((0:Int),(150:ℚ)),(1,150),(2,150),(3,150),(4,150),(5,150),
          (6,150),(7,150)] 7 5 (some t) 8).1 = some m →
        scoreOf m ≤ baselineScore 0 [((0:Int),(150:ℚ)),(1,150),(2,150),(3,150),
          (4,150),(5,150),(6,150),(7,150)] 5 8 + 1/100)
    ∧ optimizeAlgorithm 0 [((0:Int),(150:ℚ)),(1,150),(2,150),(3,150),(4,150),
        (5,150),(6,150),(7,150)] 5 8 = (8, .alreadyOptimal) := by
  have hnone : ∀ t : ℚ, (runBacktest 0 [((0:Int),(150:ℚ)),(1,150),(2,150),(3,150),
      (4,150),(5,150),(6,150),(7,150)] 7 5 (some t) 8).1 = none := fun t => by
    with_unfolding_all rfl
  have hH : ∀ t ∈ gridThresholds, ∀ m : Metrics,
      (runBacktest 0 [((0:Int),(150:ℚ)),(1,150),(2,150),(3,150),(4,150),(5,150),
        (6,150),(7,150)] 7 5 (some t) 8).1 = some m →
      scoreOf m ≤ baselineScore 0 [((0:Int),(150:ℚ)),(1,150),(2,150),(3,150),
        (4,150),(5,150),(6,150),(7,150)] 5 8 + 1/100 := by
    intro t ht m hm
    rw [hnone t] at hm
    exact absurd hm (by simp)
  exact ⟨hH, optimizeAlgorithm_already_optimal 0 _ 5 8 hH⟩
